import Mathlib

/-!
Shallow embedding of `src/readfacevmd.cc` (readfacevmd), covering the
Channel Mapper phase: the per-frame loop of `read_face_vmd`, the helper
functions `add_rotation_pose` / `add_position_pose` / `add_head_pose` /
`add_center_frame` / `add_gaze_pose` / `add_morph_frame`, the Action Unit
extraction `get_action_unit`, and the expression mapping
`estimate_facial_expression`.

Modelling conventions:
* C++ `double`/`float` values are modelled as rationals (`ℚ`); the decimal
  literals of the source (`0.1`, `0.2`, `12.5`, ...) are exact rationals here.
* The transcendental numeric kernels used by the source through Eigen —
  `AngleAxisd` (whose quaternion is built from cos/sin of the half angle),
  `Quaterniond::FromTwoVectors` (needs a square root) and
  `Quaterniond::slerp` from the identity (needs trigonometry) — have no
  exact rational counterpart, so they are abstracted as parameters
  (`NumKernels`); every claim about them is structural (which channel
  receives which computed rotation), not about their numeric output.
* `std::vector` push_back sequences become `List` appends.
* The fixed-width Shift-JIS name fields filled by
  `MMDFileIOUtil::utf8_to_sjis` are modelled as the `String` itself: the
  conversion is injective on the short channel names the mapper uses, and no
  claim depends on the byte-level encoding.
-/

/-- A 3-component vector of rationals (Eigen `Vector3d` / `cv::Point3f`). -/
structure Vec3 where
  x : ℚ
  y : ℚ
  z : ℚ
deriving DecidableEq, Repr

/-- A quaternion with rational components (Eigen `Quaterniond`, components w, x, y, z). -/
structure Quat where
  w : ℚ
  x : ℚ
  y : ℚ
  z : ℚ
deriving DecidableEq, Repr

/-- `Quaterniond::Identity()`. -/
def Quat.identity : Quat := ⟨1, 0, 0, 0⟩

/-- Hamilton product of quaternions (Eigen `operator*`). -/
def Quat.mul (p q : Quat) : Quat :=
  ⟨p.w * q.w - p.x * q.x - p.y * q.y - p.z * q.z,
   p.w * q.x + p.x * q.w + p.y * q.z - p.z * q.y,
   p.w * q.y - p.x * q.z + p.y * q.w + p.z * q.x,
   p.w * q.z + p.x * q.y - p.y * q.x + p.z * q.w⟩

/-- Cross product of 3-vectors. -/
def cross (a b : Vec3) : Vec3 :=
  ⟨a.y * b.z - a.z * b.y, a.z * b.x - a.x * b.z, a.x * b.y - a.y * b.x⟩

/-- Rotation of a vector by a unit quaternion (Eigen `Quaterniond * Vector3d`),
computed as `v + 2 w (u × v) + 2 u × (u × v)` where `u` is the vector part. -/
def Quat.rotate (q : Quat) (v : Vec3) : Vec3 :=
  let u : Vec3 := ⟨q.x, q.y, q.z⟩
  let uv := cross u v
  let uuv := cross u uv
  ⟨v.x + 2 * (q.w * uv.x + uuv.x),
   v.y + 2 * (q.w * uv.y + uuv.y),
   v.z + 2 * (q.w * uv.z + uuv.z)⟩

/-- One bone keyframe (`VMD_Frame` of VMD.h).
Modelled from the spec: VMD.h is not under `src/`; per the container
description a pure-rotation record carries zero position and a pure-position
record carries the identity rotation, so those are the values the `add_*_pose`
helpers leave in the fields they do not set. -/
structure VMD_Frame where
  bonename : String
  number : ℕ
  position : Vec3
  rotation : Quat
deriving DecidableEq, Repr

/-- One morph keyframe (`VMD_Morph` of VMD.h). -/
structure VMD_Morph where
  name : String
  frame : ℕ
  weight : ℚ
deriving DecidableEq, Repr

/-- `add_rotation_pose`: appends a rotation keyframe to the frame vector
(`src/readfacevmd.cc` lines 67-77). -/
def add_rotation_pose (frame_vec : List VMD_Frame) (rot : Quat) (frame_number : ℕ)
    (bone_name : String) : List VMD_Frame :=
  frame_vec ++ [{ bonename := bone_name, number := frame_number,
                  position := ⟨0, 0, 0⟩, rotation := rot }]

/-- `add_position_pose`: appends a position keyframe to the frame vector
(lines 80-89). -/
def add_position_pose (frame_vec : List VMD_Frame) (pos : Vec3) (frame_number : ℕ)
    (bone_name : String) : List VMD_Frame :=
  frame_vec ++ [{ bonename := bone_name, number := frame_number,
                  position := pos, rotation := Quat.identity }]

/-- `add_head_pose` (lines 92-96): head rotation keyframe on the 頭 bone. -/
def add_head_pose (frame_vec : List VMD_Frame) (rot : Quat) (frame_number : ℕ) :
    List VMD_Frame :=
  let bone_name := "頭"
  add_rotation_pose frame_vec rot frame_number bone_name

/-- `add_center_frame` (lines 99-103): center position keyframe on the センター bone. -/
def add_center_frame (frame_vec : List VMD_Frame) (pos : Vec3) (frame_number : ℕ) :
    List VMD_Frame :=
  let bone_name := "センター"
  add_position_pose frame_vec pos frame_number bone_name

/-- `add_morph_frame` (lines 133-146): clamps the weight to at most 1 then to at
least 0, exactly in the source's order, and appends the morph keyframe. -/
def add_morph_frame (morph_vec : List VMD_Morph) (name : String) (frame_number : ℕ)
    (weight : ℚ) : List VMD_Morph :=
  let weight1 := if weight > 1 then 1 else weight
  let weight2 := if weight1 < 0 then 0 else weight1
  morph_vec ++ [{ name := name, frame := frame_number, weight := weight2 }]

/-- The clamp of a weight to `[0,1]`, as the two sequential ifs of
`add_morph_frame` compute it. -/
def clamp01 (w : ℚ) : ℚ :=
  if w > 1 then 1 else if w < 0 then 0 else w

/-! ## Action Unit ids (`enum AUID`, lines 36-55) -/

namespace AUID

def InnerBrowRaiser : ℕ := 1
def OuterBrowRaiser : ℕ := 2
def BrowLowerer : ℕ := 4
def UpperLidRaiser : ℕ := 5
def CheekRaiser : ℕ := 6
def LidTightener : ℕ := 7
def NoseWrinkler : ℕ := 9
def UpperLipRaiser : ℕ := 10
def LipCornerPuller : ℕ := 12
def Dimpler : ℕ := 14
def LipCornerDepressor : ℕ := 15
def ChinRaiser : ℕ := 17
def LipStrecher : ℕ := 20
def LipTightener : ℕ := 23
def LipPart : ℕ := 25
def JawDrop : ℕ := 26
def LipSuck : ℕ := 28
def Blink : ℕ := 45

end AUID

/-- `estimate_facial_expression` (lines 180-215): derives the fixed list of
morph weights from the Action Unit array `au` (modelled as a total function on
AU ids) and appends one keyframe per morph name. -/
def estimate_facial_expression (morph_vec : List VMD_Morph) (au : ℕ → ℚ)
    (frame_number : ℕ) : List VMD_Morph :=
  -- 口
  let mouth_a := au AUID.JawDrop * 2
  let mouth_u := au AUID.LipTightener * 2
  let mouth_i := if mouth_a < 1/10 ∧ mouth_u < 1/10 then au AUID.LipPart * 2 else 0
  let mouth_smile := au AUID.LipCornerPuller
  let mv := add_morph_frame morph_vec ("あ") frame_number mouth_a
  let mv := add_morph_frame mv ("い") frame_number mouth_i
  let mv := add_morph_frame mv ("う") frame_number mouth_u
  let mv := add_morph_frame mv ("にやり") frame_number mouth_smile
  let mv := add_morph_frame mv ("∧") frame_number (au AUID.LipCornerDepressor)
  -- 目
  let blink := if au AUID.Blink > 1/5 then 1 else au AUID.LidTightener
  let mv := add_morph_frame mv ("まばたき") frame_number blink
  let mv := add_morph_frame mv ("CheekRaiser") frame_number (au AUID.CheekRaiser)
  let mv := add_morph_frame mv ("びっくり") frame_number (au AUID.UpperLidRaiser)
  -- 眉
  let mv := add_morph_frame mv ("困る") frame_number (au AUID.InnerBrowRaiser)
  let mv := add_morph_frame mv ("真面目") frame_number (au AUID.OuterBrowRaiser)
  let mv := add_morph_frame mv ("怒り") frame_number (au AUID.NoseWrinkler)
  let mv := add_morph_frame mv ("下") frame_number (au AUID.BrowLowerer)
  add_morph_frame mv ("上") frame_number (au AUID.UpperLidRaiser)

/-- The thirteen morph keyframes `estimate_facial_expression` produces for one
frame, as an explicit list. -/
def est_list (au : ℕ → ℚ) (n : ℕ) : List VMD_Morph :=
  [⟨"あ", n, clamp01 (au AUID.JawDrop * 2)⟩,
   ⟨"い", n, clamp01 (if au AUID.JawDrop * 2 < 1/10 ∧ au AUID.LipTightener * 2 < 1/10
                      then au AUID.LipPart * 2 else 0)⟩,
   ⟨"う", n, clamp01 (au AUID.LipTightener * 2)⟩,
   ⟨"にやり", n, clamp01 (au AUID.LipCornerPuller)⟩,
   ⟨"∧", n, clamp01 (au AUID.LipCornerDepressor)⟩,
   ⟨"まばたき", n, clamp01 (if au AUID.Blink > 1/5 then 1 else au AUID.LidTightener)⟩,
   ⟨"CheekRaiser", n, clamp01 (au AUID.CheekRaiser)⟩,
   ⟨"びっくり", n, clamp01 (au AUID.UpperLidRaiser)⟩,
   ⟨"困る", n, clamp01 (au AUID.InnerBrowRaiser)⟩,
   ⟨"真面目", n, clamp01 (au AUID.OuterBrowRaiser)⟩,
   ⟨"怒り", n, clamp01 (au AUID.NoseWrinkler)⟩,
   ⟨"下", n, clamp01 (au AUID.BrowLowerer)⟩,
   ⟨"上", n, clamp01 (au AUID.UpperLidRaiser)⟩]

/-! ## Action Unit extraction (`get_action_unit`, lines 149-177)

The two associative containers returned by the face analyser
(`GetCurrentAUsReg` for intensities, `GetCurrentAUsClass` for presence) are
modelled as association lists already keyed by the numeric AU id — the source
obtains the id from the textual key `AUxx` by `substr(2, 2)` and `atoi`, a
parse this embedding abstracts.  The local array `bool valid[AU_SIZE]` is
*uninitialized* before the presence loop writes to it, so it is modelled as an
`Option Bool`-valued map, `none` standing for an uninitialized slot; the read
`valid[id]` in the intensity loop therefore lives in `Option`, `none`
propagating when the slot was never written. -/

/-- One step of the presence loop of `get_action_unit` (lines 159-167): writes
`false` into the slot of the entry's id when its presence value is zero,
`true` otherwise, leaving other slots alone. -/
def build_valid_step (valid : ℕ → Option Bool) (p : ℕ × ℚ) : ℕ → Option Bool :=
  fun j => if j = p.1 then (if p.2 = 0 then some false else some true) else valid j

/-- The presence loop of `get_action_unit`: fills the `valid` map from the
all-uninitialized state, later entries overwriting earlier ones. -/
def build_valid (presence : List (ℕ × ℚ)) : ℕ → Option Bool :=
  presence.foldl build_valid_step (fun _ => none)

/-- One step of the intensity loop of `get_action_unit` (lines 169-176): reads
`valid[id]` (the `Option` models the possibly-uninitialized read) and, when the
id is flagged present, overwrites `au[id]` with the intensity divided by
`ACTION_UNIT_MAXVAL = 5.0`. -/
def get_action_unit_step (valid : ℕ → Option Bool) (au : ℕ → ℚ) (p : ℕ × ℚ) :
    Option (ℕ → ℚ) :=
  match valid p.1 with
  | none => none
  | some b => some (if b then (fun j => if j = p.1 then p.2 / 5 else au j) else au)

/-- `get_action_unit` (lines 149-177): the `au` array starts all zero, the
`valid` map is built from the presence list, then the intensity loop runs; the
result is `none` exactly when some intensity entry reads an uninitialized
`valid` slot. -/
def get_action_unit (intensity presence : List (ℕ × ℚ)) : Option (ℕ → ℚ) :=
  intensity.foldlM (get_action_unit_step (build_valid presence)) (fun _ => 0)

/-! ## Gaze (`add_gaze_pose`, lines 106-130) and the frame loop of
`read_face_vmd` (lines 337-431) -/

/-- The transcendental numeric kernels the source uses through Eigen, abstracted:
`hcos θ` / `hsin θ` stand for `cos(θ/2)` / `sin(θ/2)` as used by `AngleAxisd`,
`fromTwoVectors` for `Quaterniond::FromTwoVectors`, and `slerpFromIdentity t q`
for `Quaterniond::Identity().slerp(t, q)`. -/
structure NumKernels where
  hcos : ℚ → ℚ
  hsin : ℚ → ℚ
  fromTwoVectors : Vec3 → Vec3 → Quat
  slerpFromIdentity : ℚ → Quat → Quat

/-- `amp_each` (line 124): damping factor for each eye's rotation. -/
def amp_each : ℚ := 1/4

/-- `add_gaze_pose` (lines 106-130): computes the per-eye rotations from the
head-space forward vector to the (y-negated) gaze directions, damps them by
slerp from the identity, and appends the right-eye rotation to the 左目 bone
followed by the left-eye rotation to the 右目 bone. -/
def add_gaze_pose (K : NumKernels) (frame_vec : List VMD_Frame)
    (gazedir_left gazedir_right : Vec3) (head_rot : Quat) (frame_number : ℕ) :
    List VMD_Frame :=
  let front := head_rot.rotate ⟨0, 0, -1⟩
  let leftdir : Vec3 := ⟨gazedir_left.x, -gazedir_left.y, gazedir_left.z⟩
  let rot_left := K.fromTwoVectors front leftdir
  let rightdir : Vec3 := ⟨gazedir_right.x, -gazedir_right.y, gazedir_right.z⟩
  let rot_right := K.fromTwoVectors front rightdir
  let rot_right := K.slerpFromIdentity amp_each rot_right
  let rot_left := K.slerpFromIdentity amp_each rot_left
  let fv := add_rotation_pose frame_vec rot_right frame_number ("左目")
  add_rotation_pose fv rot_left frame_number ("右目")

/-- The six components of the head pose `cv::Vec6d` returned by
`LandmarkDetector::GetPose`: indices 0-2 are the position, 3-5 the rotation
angles. -/
structure Vec6 where
  c0 : ℚ
  c1 : ℚ
  c2 : ℚ
  c3 : ℚ
  c4 : ℚ
  c5 : ℚ

/-- Eigen `AngleAxisd(angle, axis)` as a quaternion,
`(cos(angle/2), sin(angle/2) · axis)`, the half-angle cosine and sine abstracted. -/
def angle_axis (hcos hsin : ℚ → ℚ) (angle : ℚ) (axis : Vec3) : Quat :=
  ⟨hcos angle, hsin angle * axis.x, hsin angle * axis.y, hsin angle * axis.z⟩

/-- `Vector3d::UnitX()`. -/
def unitX : Vec3 := ⟨1, 0, 0⟩

/-- `Vector3d::UnitY()`. -/
def unitY : Vec3 := ⟨0, 1, 0⟩

/-- `Vector3d::UnitZ()`. -/
def unitZ : Vec3 := ⟨0, 0, 1⟩

/-- `rot_vmd` (lines 383-385): the head rotation quaternion,
`AngleAxisd(-pose[3], UnitX) * (AngleAxisd(pose[4], UnitY) * AngleAxisd(-pose[5], UnitZ))`. -/
def head_rot_vmd (K : NumKernels) (head_pose : Vec6) : Quat :=
  (angle_axis K.hcos K.hsin (-head_pose.c3) unitX).mul
    ((angle_axis K.hcos K.hsin head_pose.c4 unitY).mul
      (angle_axis K.hcos K.hsin (-head_pose.c5) unitZ))

/-- What the external collaborators hand the loop body for one frame on which
landmark detection succeeded: the head pose, the Action Unit array (the result
of `get_action_unit`, whose internals are modelled separately because its
uninitialized-read path has no defined value), the `face_model.eye_model`
availability flag, and the two gaze direction vectors as
`CustomEstimateGaze` leaves them. -/
structure DetectedFrame where
  head_pose : Vec6
  au : ℕ → ℚ
  eye_model : Bool
  gazedir_left : Vec3
  gazedir_right : Vec3

/-- One source video frame as the loop sees it: `detected = none` models
`DetectLandmarksInVideo` returning false (the `continue` branch, line 377). -/
structure FrameInput where
  detected : Option DetectedFrame

/-- The two channel stores of the `VMD` document the mapper appends to:
`vmd.frame` (bone keyframes) and `vmd.morph` (morph keyframes). -/
structure VMDState where
  frame : List VMD_Frame
  morph : List VMD_Morph

/-- The body of the frame loop of `read_face_vmd` (lines 369-406) for frame
number `n`: on detection failure nothing happens (`continue`); otherwise the
head rotation and center position keyframes are appended, the facial
expression morphs are appended, and, only when the eye model is available,
the gaze keyframes are appended. -/
def process_frame (K : NumKernels) (vmd : VMDState) (n : ℕ) (inp : FrameInput) :
    VMDState :=
  match inp.detected with
  | none => vmd
  | some d =>
    let rot_vmd := head_rot_vmd K d.head_pose
    let fv := add_head_pose vmd.frame rot_vmd n
    -- center_pos = (pose[0], -pose[1], pose[2] - 1000) * 12.5 / 1000 / 2
    let center_pos : Vec3 :=
      ⟨d.head_pose.c0 * (25/2) / 1000 / 2,
       -d.head_pose.c1 * (25/2) / 1000 / 2,
       (d.head_pose.c2 - 1000) * (25/2) / 1000 / 2⟩
    let fv := add_center_frame fv center_pos n
    let mv := estimate_facial_expression vmd.morph d.au n
    if d.eye_model then
      { frame := add_gaze_pose K fv d.gazedir_left d.gazedir_right rot_vmd n,
        morph := mv }
    else
      { frame := fv, morph := mv }

/-- The frame loop of `read_face_vmd`: `frame_number` starts at 0 and
increments once per source frame, whether or not the frame was skipped. -/
def run_loop (K : NumKernels) (vmd : VMDState) (n : ℕ) : List FrameInput → VMDState
  | [] => vmd
  | inp :: rest => run_loop K (process_frame K vmd n inp) (n + 1) rest

/-- The whole mapping phase of `read_face_vmd` over a recorded input stream,
starting from the empty document (before smoothing, reduction, refinement,
renaming and serialization). -/
def read_face_vmd_mapper (K : NumKernels) (inputs : List FrameInput) : VMDState :=
  run_loop K ⟨[], []⟩ 0 inputs

/-- Rotation about the X axis as a quaternion, stated from the spec's words
("the X-axis rotation by the negated first pose angle"): the half-angle
cosine/sine kernels applied to the angle, placed on the w and x components. -/
def rot_x (K : NumKernels) (angle : ℚ) : Quat :=
  ⟨K.hcos angle, K.hsin angle, 0, 0⟩

/-- Rotation about the Y axis as a quaternion (spec side). -/
def rot_y (K : NumKernels) (angle : ℚ) : Quat :=
  ⟨K.hcos angle, 0, K.hsin angle, 0⟩

/-- Rotation about the Z axis as a quaternion (spec side). -/
def rot_z (K : NumKernels) (angle : ℚ) : Quat :=
  ⟨K.hcos angle, 0, 0, K.hsin angle⟩

/-- The rotation `add_gaze_pose` computes for one eye from a gaze direction
`g` and the head rotation: minimal rotation from the head-space forward vector
to the y-negated gaze direction, damped by `amp_each`. -/
def gaze_rot (K : NumKernels) (head_rot : Quat) (g : Vec3) : Quat :=
  K.slerpFromIdentity amp_each
    (K.fromTwoVectors (head_rot.rotate ⟨0, 0, -1⟩) ⟨g.x, -g.y, g.z⟩)

/-- The center position the loop computes (lines 387-388):
`(pose[0], -pose[1], pose[2] - 1000) * 12.5 / 1000 / 2` (1m = 12.5 MMD units). -/
def center_pos (d : DetectedFrame) : Vec3 :=
  ⟨d.head_pose.c0 * (25/2) / 1000 / 2,
   -d.head_pose.c1 * (25/2) / 1000 / 2,
   (d.head_pose.c2 - 1000) * (25/2) / 1000 / 2⟩

/-- The bone keyframes one successfully detected frame appends: head and
center always, then the two (swapped) eye keyframes when the eye model is
available. -/
def frames_of (K : NumKernels) (d : DetectedFrame) (n : ℕ) : List VMD_Frame :=
  let rot := head_rot_vmd K d.head_pose
  let headF : VMD_Frame := ⟨"頭", n, ⟨0, 0, 0⟩, rot⟩
  let centerF : VMD_Frame := ⟨"センター", n, center_pos d, Quat.identity⟩
  if d.eye_model then
    [headF, centerF,
     ⟨"左目", n, ⟨0, 0, 0⟩, gaze_rot K rot d.gazedir_right⟩,
     ⟨"右目", n, ⟨0, 0, 0⟩, gaze_rot K rot d.gazedir_left⟩]
  else
    [headF, centerF]

/-! ## Concrete inputs used to exercise the theorems -/

/-- A concrete instantiation of the abstracted numeric kernels, chosen so that
the per-eye rotation visibly carries its input gaze vector. -/
def sample_kernels : NumKernels :=
  ⟨fun _ => 1, fun _ => 0, fun _ b => ⟨0, b.x, b.y, b.z⟩, fun _ q => q⟩

/-- A detected frame with the eye model available and distinct gaze vectors. -/
def sample_detected : DetectedFrame :=
  ⟨⟨0, 0, 0, 0, 0, 0⟩, fun _ => 0, true, ⟨1, 2, 3⟩, ⟨4, 5, 6⟩⟩

/-- A detected frame with the eye model missing. -/
def sample_detected_noeye : DetectedFrame :=
  ⟨⟨0, 0, 0, 0, 0, 0⟩, fun _ => 0, false, ⟨1, 2, 3⟩, ⟨4, 5, 6⟩⟩

/-- The AU array of the middle frame of the spec's mouth scenario: jaw drop
(AU26) intensity 0.6, all other AUs 0. -/
def c2_au1 : ℕ → ℚ := fun j => if j = AUID.JawDrop then 3/5 else 0

/-- The three synthetic frames of the spec's mouth scenario: jaw-drop AU
intensities 0.0, 0.6, 0.0 at frame indices 0, 1, 2, all other AUs 0. -/
def c2_inputs : List FrameInput :=
  [⟨some ⟨⟨0, 0, 0, 0, 0, 0⟩, fun _ => 0, false, ⟨0, 0, -1⟩, ⟨0, 0, -1⟩⟩⟩,
   ⟨some ⟨⟨0, 0, 0, 0, 0, 0⟩, c2_au1, false, ⟨0, 0, -1⟩, ⟨0, 0, -1⟩⟩⟩,
   ⟨some ⟨⟨0, 0, 0, 0, 0, 0⟩, fun _ => 0, false, ⟨0, 0, -1⟩, ⟨0, 0, -1⟩⟩⟩]

/-- The AU array of the spec's blink scenario: blink AU (AU45) intensity 0.25
(above the 0.2 override threshold), lid tightener (AU07) 0.1. -/
def c3_au : ℕ → ℚ :=
  fun j => if j = AUID.Blink then 1/4 else if j = AUID.LidTightener then 1/10 else 0

/-- An input stream whose middle frame fails landmark detection. -/
def c5_inputs : List FrameInput :=
  [⟨some sample_detected⟩, ⟨none⟩, ⟨some sample_detected_noeye⟩]

/-- A concrete AU intensity list: AU01 reported at raw intensity 2, AU45 at 3. -/
def c9_intensity : List (ℕ × ℚ) := [(1, 2), (45, 3)]

/-- A concrete AU presence list covering the intensity ids: AU01 present
(nonzero class value), AU45 absent. -/
def c9_presence : List (ℕ × ℚ) := [(1, 1), (45, 0)]

/-! ## Theorems -/

theorem add_morph_frame_eq (mv : List VMD_Morph) (name : String) (n : ℕ) (w : ℚ) :
    add_morph_frame mv name n w = mv ++ [⟨name, n, clamp01 w⟩] := by
  unfold add_morph_frame clamp01
  split_ifs with h1 h2 <;> simp_all

theorem clamp01_nonneg (w : ℚ) : 0 ≤ clamp01 w := by
  unfold clamp01
  split_ifs <;> linarith

theorem clamp01_le_one (w : ℚ) : clamp01 w ≤ 1 := by
  unfold clamp01
  split_ifs <;> linarith

/-- **C1.** For every morph sample appended by the Channel Mapper, whatever the
input AU intensity (including values above 1 and negative values), the weight
stored in the sample lies in `[0,1]`: `add_morph_frame` appends exactly one
sample, carrying the given name and frame number, whose weight is the input
weight clamped to 1.0 from above and 0.0 from below. -/
theorem add_morph_frame_clamps (mv : List VMD_Morph) (name : String) (n : ℕ) (w : ℚ) :
    ∃ m : VMD_Morph, add_morph_frame mv name n w = mv ++ [m] ∧
      m.name = name ∧ m.frame = n ∧ 0 ≤ m.weight ∧ m.weight ≤ 1 := by
  refine ⟨⟨name, n, clamp01 w⟩, add_morph_frame_eq mv name n w, rfl, rfl, ?_, ?_⟩
  · exact clamp01_nonneg w
  · exact clamp01_le_one w

theorem estimate_facial_expression_eq (mv : List VMD_Morph) (au : ℕ → ℚ) (n : ℕ) :
    estimate_facial_expression mv au n = mv ++ est_list au n := by
  simp [estimate_facial_expression, est_list, add_morph_frame_eq]

theorem process_frame_none (K : NumKernels) (vmd : VMDState) (n : ℕ) (inp : FrameInput)
    (h : inp.detected = none) : process_frame K vmd n inp = vmd := by
  unfold process_frame
  rw [h]

theorem process_frame_some (K : NumKernels) (vmd : VMDState) (n : ℕ) (inp : FrameInput)
    (d : DetectedFrame) (h : inp.detected = some d) :
    process_frame K vmd n inp =
      ⟨vmd.frame ++ frames_of K d n, vmd.morph ++ est_list d.au n⟩ := by
  unfold process_frame frames_of
  rw [h]
  cases hd : d.eye_model <;>
    simp [hd, add_head_pose, add_center_frame, add_rotation_pose, add_position_pose,
      add_gaze_pose, gaze_rot, center_pos, estimate_facial_expression_eq]

theorem est_list_filter_a (au : ℕ → ℚ) (n : ℕ) :
    (est_list au n).filter (fun m => m.name == "あ") =
      [⟨"あ", n, clamp01 (au AUID.JawDrop * 2)⟩] := by
  simp [est_list, List.filter]

theorem est_list_filter_i (au : ℕ → ℚ) (n : ℕ) :
    (est_list au n).filter (fun m => m.name == "い") =
      [⟨"い", n, clamp01 (if au AUID.JawDrop * 2 < 1/10 ∧ au AUID.LipTightener * 2 < 1/10
                          then au AUID.LipPart * 2 else 0)⟩] := by
  simp [est_list, List.filter]

theorem est_list_filter_blink (au : ℕ → ℚ) (n : ℕ) :
    (est_list au n).filter (fun m => m.name == "まばたき") =
      [⟨"まばたき", n, clamp01 (if au AUID.Blink > 1/5 then 1 else au AUID.LidTightener)⟩] := by
  simp [est_list, List.filter]

theorem est_list_filter_bikkuri (au : ℕ → ℚ) (n : ℕ) :
    (est_list au n).filter (fun m => m.name == "びっくり") =
      [⟨"びっくり", n, clamp01 (au AUID.UpperLidRaiser)⟩] := by
  simp [est_list, List.filter]

theorem est_list_filter_ue (au : ℕ → ℚ) (n : ℕ) :
    (est_list au n).filter (fun m => m.name == "上") =
      [⟨"上", n, clamp01 (au AUID.UpperLidRaiser)⟩] := by
  simp [est_list, List.filter]

theorem clamp01_of_mem_unit (w : ℚ) (h0 : 0 ≤ w) (h1 : w ≤ 1) : clamp01 w = w := by
  unfold clamp01
  split_ifs <;> linarith

/-- **C2.** For every processed frame, the あ morph weight equals twice the
jaw-drop (AU26) intensity clamped to `[0,1]`, and the い morph weight equals
twice the lip-part (AU25) intensity (clamped like every appended weight) only
when both the unclamped あ value and the unclamped う value are below the
epsilon 0.1, otherwise 0; moreover on the spec's three synthetic frames with
jaw-drop intensities 0.0, 0.6, 0.0 at indices 0, 1, 2, the mapped あ channel
carries weights 0.0, 1.0 (clamped from 1.2), 0.0 at those frame indices. -/
theorem mouth_morphs_c2 (K : NumKernels) (mv : List VMD_Morph) (au : ℕ → ℚ) (n : ℕ) :
    ((estimate_facial_expression mv au n).filter (fun m => m.name == "あ") =
      mv.filter (fun m => m.name == "あ") ++ [⟨"あ", n, clamp01 (au AUID.JawDrop * 2)⟩]) ∧
    ((estimate_facial_expression mv au n).filter (fun m => m.name == "い") =
      mv.filter (fun m => m.name == "い") ++
        [⟨"い", n, if au AUID.JawDrop * 2 < 1/10 ∧ au AUID.LipTightener * 2 < 1/10
                   then clamp01 (au AUID.LipPart * 2) else 0⟩]) ∧
    ((read_face_vmd_mapper K c2_inputs).morph.filter (fun m => m.name == "あ")).map
        (fun m => (m.frame, m.weight)) = [(0, 0), (1, 1), (2, 0)] := by
  refine ⟨?_, ?_, ?_⟩
  · rw [estimate_facial_expression_eq, List.filter_append, est_list_filter_a]
  · rw [estimate_facial_expression_eq, List.filter_append, est_list_filter_i]
    congr 1
    split_ifs with h
    · rfl
    · simp [clamp01]
  · have e : (read_face_vmd_mapper K c2_inputs).morph =
        (([] ++ est_list (fun _ => 0) 0) ++ est_list c2_au1 1) ++ est_list (fun _ => 0) 2 := by
      show (run_loop K ⟨[], []⟩ 0 c2_inputs).morph = _
      simp only [c2_inputs, run_loop]
      rw [process_frame_some _ _ _ _ _ rfl, process_frame_some _ _ _ _ _ rfl,
        process_frame_some _ _ _ _ _ rfl]
    rw [e]
    simp only [List.filter_append, List.map_append, est_list_filter_a]
    norm_num [c2_au1, clamp01, AUID.JawDrop]

/-- **C3.** For every processed frame, the まばたき (blink) morph weight equals
the lid-tightener (AU07) intensity (here assumed in its normalized range
`[0,1]`, so the final clamp leaves it unchanged), except that whenever the
dedicated blink AU (AU45) intensity strictly exceeds 0.2 the weight is forced
to exactly 1.0 regardless of the lid-tightener value. -/
theorem blink_morph_c3 (mv : List VMD_Morph) (au : ℕ → ℚ) (n : ℕ)
    (h0 : 0 ≤ au AUID.LidTightener) (h1 : au AUID.LidTightener ≤ 1) :
    (estimate_facial_expression mv au n).filter (fun m => m.name == "まばたき") =
      mv.filter (fun m => m.name == "まばたき") ++
        [⟨"まばたき", n, if au AUID.Blink > 1/5 then 1 else au AUID.LidTightener⟩] := by
  rw [estimate_facial_expression_eq, List.filter_append, est_list_filter_blink]
  have hw : clamp01 (if au AUID.Blink > 1/5 then 1 else au AUID.LidTightener)
      = if au AUID.Blink > 1/5 then 1 else au AUID.LidTightener := by
    split_ifs with h
    · simp [clamp01]
    · exact clamp01_of_mem_unit _ h0 h1
  rw [hw]

/-- Witness for C3, on the spec's blink scenario: blink AU intensity 0.25
(above the 0.2 threshold) with lid-tightener 0.1 at frame 5 yields a blink
weight forced to 1.0. -/
theorem blink_morph_c3_witness :
    ((0:ℚ) ≤ c3_au AUID.LidTightener ∧ c3_au AUID.LidTightener ≤ 1) ∧
    (estimate_facial_expression [] c3_au 5).filter (fun m => m.name == "まばたき") =
      [⟨"まばたき", 5, 1⟩] :=
  ⟨⟨by norm_num [c3_au, AUID.LidTightener, AUID.Blink], by norm_num [c3_au, AUID.LidTightener, AUID.Blink]⟩,
    (blink_morph_c3 [] c3_au 5 (by norm_num [c3_au, AUID.LidTightener, AUID.Blink]) (by norm_num [c3_au, AUID.LidTightener, AUID.Blink])).trans
      (by norm_num [c3_au, AUID.Blink, AUID.LidTightener])⟩

/-- **C4.** For every frame with gaze available (landmark detection succeeded
and the eye model is present), the left/right eye outputs are swapped on
assignment: the rotation computed from the right-eye gaze vector is appended
to the channel named 左目 (left eye), and the rotation computed from the
left-eye gaze vector is appended to the channel named 右目 (right eye). -/
theorem gaze_swap_c4 (K : NumKernels) (vmd : VMDState) (n : ℕ) (inp : FrameInput)
    (d : DetectedFrame) (hd : inp.detected = some d) (he : d.eye_model = true) :
    (process_frame K vmd n inp).frame =
      vmd.frame ++
        [⟨"頭", n, ⟨0, 0, 0⟩, head_rot_vmd K d.head_pose⟩,
         ⟨"センター", n, center_pos d, Quat.identity⟩,
         ⟨"左目", n, ⟨0, 0, 0⟩, gaze_rot K (head_rot_vmd K d.head_pose) d.gazedir_right⟩,
         ⟨"右目", n, ⟨0, 0, 0⟩, gaze_rot K (head_rot_vmd K d.head_pose) d.gazedir_left⟩] := by
  rw [process_frame_some K vmd n inp d hd]
  simp [frames_of, he]

/-- Witness for C4 at a concrete input: with gaze vectors `(1,2,3)` (left) and
`(4,5,6)` (right) and kernels that carry the target vector into the quaternion,
the 左目 keyframe holds the rotation built from the right-eye vector
(components `4, -5, 6`) and the 右目 keyframe the one built from the left-eye
vector (components `1, -2, 3`). -/
theorem gaze_swap_c4_witness :
    ((⟨some sample_detected⟩ : FrameInput).detected = some sample_detected ∧
      sample_detected.eye_model = true) ∧
    (process_frame sample_kernels ⟨[], []⟩ 0 ⟨some sample_detected⟩).frame =
      [⟨"頭", 0, ⟨0, 0, 0⟩, ⟨1, 0, 0, 0⟩⟩,
       ⟨"センター", 0, ⟨0, 0, -25/4⟩, ⟨1, 0, 0, 0⟩⟩,
       ⟨"左目", 0, ⟨0, 0, 0⟩, ⟨0, 4, -5, 6⟩⟩,
       ⟨"右目", 0, ⟨0, 0, 0⟩, ⟨0, 1, -2, 3⟩⟩] :=
  ⟨⟨rfl, rfl⟩,
    (gaze_swap_c4 sample_kernels ⟨[], []⟩ 0 ⟨some sample_detected⟩ sample_detected rfl
      rfl).trans
      (by norm_num [sample_kernels, sample_detected, head_rot_vmd, angle_axis, center_pos,
        gaze_rot, Quat.mul, Quat.identity, unitX, unitY, unitZ, amp_each])⟩

/-- **C6.** For every frame where the eye model is missing, gaze channels are
simply not produced for that frame: the bone store receives exactly the head
and center keyframes (no 左目/右目 sample), while the morph channels still
receive their thirteen samples for that frame. -/
theorem no_eye_model_c6 (K : NumKernels) (vmd : VMDState) (n : ℕ) (inp : FrameInput)
    (d : DetectedFrame) (hd : inp.detected = some d) (he : d.eye_model = false) :
    process_frame K vmd n inp =
      ⟨vmd.frame ++
        [⟨"頭", n, ⟨0, 0, 0⟩, head_rot_vmd K d.head_pose⟩,
         ⟨"センター", n, center_pos d, Quat.identity⟩],
       vmd.morph ++ est_list d.au n⟩ := by
  rw [process_frame_some K vmd n inp d hd]
  simp [frames_of, he]

/-- Witness for C6 at a concrete input: a detected frame without an eye model
appends exactly the head and center bone keyframes and the thirteen morph
keyframes. -/
theorem no_eye_model_c6_witness :
    ((⟨some sample_detected_noeye⟩ : FrameInput).detected = some sample_detected_noeye ∧
      sample_detected_noeye.eye_model = false) ∧
    process_frame sample_kernels ⟨[], []⟩ 3 ⟨some sample_detected_noeye⟩ =
      ⟨[⟨"頭", 3, ⟨0, 0, 0⟩, head_rot_vmd sample_kernels sample_detected_noeye.head_pose⟩,
        ⟨"センター", 3, center_pos sample_detected_noeye, Quat.identity⟩],
       est_list sample_detected_noeye.au 3⟩ :=
  ⟨⟨rfl, rfl⟩,
    (no_eye_model_c6 sample_kernels ⟨[], []⟩ 3 ⟨some sample_detected_noeye⟩
      sample_detected_noeye rfl rfl).trans (by simp)⟩

theorem angle_axis_unitX (hcos hsin : ℚ → ℚ) (θ : ℚ) :
    angle_axis hcos hsin θ unitX = ⟨hcos θ, hsin θ, 0, 0⟩ := by
  simp [angle_axis, unitX]

theorem angle_axis_unitY (hcos hsin : ℚ → ℚ) (θ : ℚ) :
    angle_axis hcos hsin θ unitY = ⟨hcos θ, 0, hsin θ, 0⟩ := by
  simp [angle_axis, unitY]

theorem angle_axis_unitZ (hcos hsin : ℚ → ℚ) (θ : ℚ) :
    angle_axis hcos hsin θ unitZ = ⟨hcos θ, 0, 0, hsin θ⟩ := by
  simp [angle_axis, unitZ]

/-- **C7.** For every processed frame, the head-rotation quaternion appended to
the 頭 (head) channel is the source pose angles combined into one quaternion
with sign conventions inverted: the X-axis rotation by the negated first pose
angle, composed with the Y-axis rotation by the second pose angle, composed
with the Z-axis rotation by the negated third pose angle. -/
theorem head_rotation_c7 (K : NumKernels) (vmd : VMDState) (n : ℕ) (inp : FrameInput)
    (d : DetectedFrame) (hd : inp.detected = some d) :
    ∃ rest, (process_frame K vmd n inp).frame =
      vmd.frame ++
        ⟨"頭", n, ⟨0, 0, 0⟩,
          (rot_x K (-d.head_pose.c3)).mul
            ((rot_y K d.head_pose.c4).mul (rot_z K (-d.head_pose.c5)))⟩ :: rest := by
  have hq : head_rot_vmd K d.head_pose =
      (rot_x K (-d.head_pose.c3)).mul
        ((rot_y K d.head_pose.c4).mul (rot_z K (-d.head_pose.c5))) := by
    rw [head_rot_vmd, angle_axis_unitX, angle_axis_unitY, angle_axis_unitZ]
    rfl
  rw [process_frame_some K vmd n inp d hd]
  unfold frames_of
  rw [hq]
  cases he : d.eye_model <;> simp [he]

/-- Witness for C7 at a concrete input. -/
theorem head_rotation_c7_witness :
    ((⟨some sample_detected⟩ : FrameInput).detected = some sample_detected) ∧
    ∃ rest, (process_frame sample_kernels ⟨[], []⟩ 0 ⟨some sample_detected⟩).frame =
      [] ++
        ⟨"頭", 0, ⟨0, 0, 0⟩,
          (rot_x sample_kernels (-sample_detected.head_pose.c3)).mul
            ((rot_y sample_kernels sample_detected.head_pose.c4).mul
              (rot_z sample_kernels (-sample_detected.head_pose.c5)))⟩ :: rest :=
  ⟨rfl, head_rotation_c7 sample_kernels ⟨[], []⟩ 0 ⟨some sample_detected⟩ sample_detected rfl⟩

theorem frames_of_number (K : NumKernels) (d : DetectedFrame) (n : ℕ) :
    ∀ f ∈ frames_of K d n, f.number = n := by
  cases he : d.eye_model <;> simp [frames_of, he]

theorem est_list_frame (au : ℕ → ℚ) (n : ℕ) : ∀ m ∈ est_list au n, m.frame = n := by
  simp [est_list]

theorem process_frame_mem_frame (K : NumKernels) (vmd : VMDState) (n : ℕ)
    (inp : FrameInput) (f : VMD_Frame) (hf : f ∈ (process_frame K vmd n inp).frame) :
    f ∈ vmd.frame ∨ ((∃ d, inp.detected = some d) ∧ f.number = n) := by
  cases hd : inp.detected with
  | none =>
    rw [process_frame_none K vmd n inp hd] at hf
    exact Or.inl hf
  | some d =>
    rw [process_frame_some K vmd n inp d hd] at hf
    rcases List.mem_append.1 hf with h | h
    · exact Or.inl h
    · exact Or.inr ⟨⟨d, rfl⟩, frames_of_number K d n f h⟩

theorem process_frame_mem_morph (K : NumKernels) (vmd : VMDState) (n : ℕ)
    (inp : FrameInput) (m : VMD_Morph) (hm : m ∈ (process_frame K vmd n inp).morph) :
    m ∈ vmd.morph ∨ ((∃ d, inp.detected = some d) ∧ m.frame = n) := by
  cases hd : inp.detected with
  | none =>
    rw [process_frame_none K vmd n inp hd] at hm
    exact Or.inl hm
  | some d =>
    rw [process_frame_some K vmd n inp d hd] at hm
    rcases List.mem_append.1 hm with h | h
    · exact Or.inl h
    · exact Or.inr ⟨⟨d, rfl⟩, est_list_frame d.au n m h⟩

theorem run_loop_mem_frame (K : NumKernels) :
    ∀ (inputs : List FrameInput) (vmd : VMDState) (n : ℕ) (f : VMD_Frame),
      f ∈ (run_loop K vmd n inputs).frame →
      f ∈ vmd.frame ∨ ∃ j d, inputs[j]? = some ⟨some d⟩ ∧ f.number = n + j := by
  intro inputs
  induction inputs with
  | nil =>
    intro vmd n f hf
    exact Or.inl hf
  | cons inp rest ih =>
    intro vmd n f hf
    rcases ih (process_frame K vmd n inp) (n + 1) f hf with hin | ⟨j, d, hj, hnum⟩
    · rcases process_frame_mem_frame K vmd n inp f hin with h | ⟨⟨d, hd⟩, hnum⟩
      · exact Or.inl h
      · refine Or.inr ⟨0, d, ?_, by omega⟩
        cases inp with
        | mk det => simp_all
    · exact Or.inr ⟨j + 1, d, by simpa using hj, by omega⟩

theorem run_loop_mem_morph (K : NumKernels) :
    ∀ (inputs : List FrameInput) (vmd : VMDState) (n : ℕ) (m : VMD_Morph),
      m ∈ (run_loop K vmd n inputs).morph →
      m ∈ vmd.morph ∨ ∃ j d, inputs[j]? = some ⟨some d⟩ ∧ m.frame = n + j := by
  intro inputs
  induction inputs with
  | nil =>
    intro vmd n m hm
    exact Or.inl hm
  | cons inp rest ih =>
    intro vmd n m hm
    rcases ih (process_frame K vmd n inp) (n + 1) m hm with hin | ⟨j, d, hj, hnum⟩
    · rcases process_frame_mem_morph K vmd n inp m hin with h | ⟨⟨d, hd⟩, hnum⟩
      · exact Or.inl h
      · refine Or.inr ⟨0, d, ?_, by omega⟩
        cases inp with
        | mk det => simp_all
    · exact Or.inr ⟨j + 1, d, by simpa using hj, by omega⟩

/-- **C5.** For every frame where landmark detection fails (the detector
returns no face), the frame is skipped entirely: no head-rotation, position,
morph, or gaze sample is appended for that frame index (the mapped document
contains no bone or morph sample carrying it, leaving a gap in the timeline),
the loop body leaves the document unchanged on such a frame, and processing
continues with the next frame at the next index. -/
theorem detection_failure_skips_c5 (K : NumKernels) (inputs : List FrameInput) (i : ℕ)
    (h : inputs[i]? = some ⟨none⟩) :
    (∀ f ∈ (read_face_vmd_mapper K inputs).frame, f.number ≠ i) ∧
    (∀ m ∈ (read_face_vmd_mapper K inputs).morph, m.frame ≠ i) ∧
    (∀ (vmd : VMDState) (n : ℕ) (rest : List FrameInput),
      run_loop K vmd n (⟨none⟩ :: rest) = run_loop K vmd (n + 1) rest) := by
  refine ⟨?_, ?_, ?_⟩
  · intro f hf hnum
    rcases run_loop_mem_frame K inputs ⟨[], []⟩ 0 f hf with hin | ⟨j, d, hj, hnum'⟩
    · simp at hin
    · have hji : j = i := by omega
      rw [hji, h] at hj
      simp at hj
  · intro m hm hnum
    rcases run_loop_mem_morph K inputs ⟨[], []⟩ 0 m hm with hin | ⟨j, d, hj, hnum'⟩
    · simp at hin
    · have hji : j = i := by omega
      rw [hji, h] at hj
      simp at hj
  · intro vmd n rest
    rw [run_loop, process_frame_none K vmd n ⟨none⟩ rfl]

/-- Witness for C5 on a concrete three-frame stream whose middle frame fails
detection: no mapped sample carries frame index 1. -/
theorem detection_failure_skips_c5_witness :
    (c5_inputs[1]? = some ⟨none⟩) ∧
    ((∀ f ∈ (read_face_vmd_mapper sample_kernels c5_inputs).frame, f.number ≠ 1) ∧
     (∀ m ∈ (read_face_vmd_mapper sample_kernels c5_inputs).morph, m.frame ≠ 1) ∧
     (∀ (vmd : VMDState) (n : ℕ) (rest : List FrameInput),
       run_loop sample_kernels vmd n (⟨none⟩ :: rest) =
         run_loop sample_kernels vmd (n + 1) rest)) :=
  ⟨rfl, detection_failure_skips_c5 sample_kernels c5_inputs 1 rfl⟩

theorem pairwise_of_length_le_one {α : Type} {R : α → α → Prop} :
    ∀ {l : List α}, l.length ≤ 1 → l.Pairwise R
  | [], _ => List.Pairwise.nil
  | [_], _ => by simp
  | _ :: _ :: _, h => by simp at h

theorem filter_key_length_le_one {α : Type} (key : α → String) (name : String) :
    ∀ l : List α, (l.map key).Nodup → (l.filter (fun a => key a == name)).length ≤ 1 := by
  intro l
  induction l with
  | nil => simp
  | cons a t ih =>
    intro h
    rw [List.map_cons, List.nodup_cons] at h
    have ht : (ha : key a == name) → t.filter (fun b => key b == name) = [] := by
      intro ha
      rw [List.filter_eq_nil_iff]
      intro b hb hkb
      refine h.1 ?_
      have hab : key a = key b := by
        rw [beq_iff_eq] at ha hkb
        rw [ha, hkb]
      rw [hab]
      exact List.mem_map_of_mem key hb
    by_cases ha : key a == name
    · simp only [List.filter_cons, ha, if_pos, ht ha]
      simp
    · simp only [List.filter_cons, ha, if_neg, Bool.false_eq_true, ite_false]
      exact ih h.2

theorem frames_of_names_nodup (K : NumKernels) (d : DetectedFrame) (n : ℕ) :
    ((frames_of K d n).map VMD_Frame.bonename).Nodup := by
  cases he : d.eye_model <;> simp [frames_of, he]

theorem est_list_names_nodup (au : ℕ → ℚ) (n : ℕ) :
    ((est_list au n).map VMD_Morph.name).Nodup := by
  simp [est_list]

theorem pairwise_lt_append_single (l1 l2 : List ℕ) (n : ℕ)
    (h1 : l1.Pairwise (· < ·)) (hlt : ∀ a ∈ l1, a < n) (heq : ∀ b ∈ l2, b = n)
    (hlen : l2.length ≤ 1) : (l1 ++ l2).Pairwise (· < ·) := by
  rw [List.pairwise_append]
  refine ⟨h1, pairwise_of_length_le_one hlen, ?_⟩
  intro a ha b hb
  rw [heq b hb]
  exact hlt a ha

theorem run_loop_pairwise (K : NumKernels) :
    ∀ (inputs : List FrameInput) (vmd : VMDState) (n : ℕ),
      (∀ f ∈ vmd.frame, f.number < n) →
      (∀ m ∈ vmd.morph, m.frame < n) →
      (∀ name, ((vmd.frame.filter (fun f => f.bonename == name)).map
        VMD_Frame.number).Pairwise (· < ·)) →
      (∀ name, ((vmd.morph.filter (fun m => m.name == name)).map
        VMD_Morph.frame).Pairwise (· < ·)) →
      ∀ name,
        (((run_loop K vmd n inputs).frame.filter (fun f => f.bonename == name)).map
          VMD_Frame.number).Pairwise (· < ·) ∧
        (((run_loop K vmd n inputs).morph.filter (fun m => m.name == name)).map
          VMD_Morph.frame).Pairwise (· < ·) := by
  intro inputs
  induction inputs with
  | nil =>
    intro vmd n _ _ hpf hpm name
    exact ⟨hpf name, hpm name⟩
  | cons inp rest ih =>
    intro vmd n hbf hbm hpf hpm name
    rw [run_loop]
    apply ih (process_frame K vmd n inp) (n + 1)
    · intro f hf
      rcases process_frame_mem_frame K vmd n inp f hf with h | ⟨_, hnum⟩
      · exact Nat.lt_succ_of_lt (hbf f h)
      · omega
    · intro m hm
      rcases process_frame_mem_morph K vmd n inp m hm with h | ⟨_, hnum⟩
      · exact Nat.lt_succ_of_lt (hbm m h)
      · omega
    · intro nm
      cases hd : inp.detected with
      | none =>
        rw [process_frame_none K vmd n inp hd]
        exact hpf nm
      | some d =>
        rw [process_frame_some K vmd n inp d hd]
        rw [List.filter_append, List.map_append]
        apply pairwise_lt_append_single _ _ n (hpf nm)
        · intro a ha
          rcases List.mem_map.1 ha with ⟨f, hf, rfl⟩
          exact hbf f (List.mem_of_mem_filter hf)
        · intro b hb
          rcases List.mem_map.1 hb with ⟨f, hf, rfl⟩
          exact frames_of_number K d n f (List.mem_of_mem_filter hf)
        · rw [List.length_map]
          exact filter_key_length_le_one VMD_Frame.bonename nm _ (frames_of_names_nodup K d n)
    · intro nm
      cases hd : inp.detected with
      | none =>
        rw [process_frame_none K vmd n inp hd]
        exact hpm nm
      | some d =>
        rw [process_frame_some K vmd n inp d hd]
        rw [List.filter_append, List.map_append]
        apply pairwise_lt_append_single _ _ n (hpm nm)
        · intro a ha
          rcases List.mem_map.1 ha with ⟨m, hm, rfl⟩
          exact hbm m (List.mem_of_mem_filter hm)
        · intro b hb
          rcases List.mem_map.1 hb with ⟨m, hm, rfl⟩
          exact est_list_frame d.au n m (List.mem_of_mem_filter hm)
        · rw [List.length_map]
          exact filter_key_length_le_one VMD_Morph.name nm _ (est_list_names_nodup d.au n)

/-- **C8.** After the mapping phase over any input frame sequence, within
every single channel — the samples of any one bone name in the bone keyframe
store, and the samples of any one morph name in the morph keyframe store —
the frame indices are strictly increasing: the frame counter increments once
per source frame, skipped frames append nothing, and each channel receives at
most one sample per frame. -/
theorem channels_strictly_increasing_c8 (K : NumKernels) (inputs : List FrameInput)
    (name : String) :
    (((read_face_vmd_mapper K inputs).frame.filter (fun f => f.bonename == name)).map
      VMD_Frame.number).Pairwise (· < ·) ∧
    (((read_face_vmd_mapper K inputs).morph.filter (fun m => m.name == name)).map
      VMD_Morph.frame).Pairwise (· < ·) := by
  apply run_loop_pairwise K inputs ⟨[], []⟩ 0 <;> simp

theorem build_valid_foldl_isSome :
    ∀ (ps : List (ℕ × ℚ)) (init : ℕ → Option Bool) (j : ℕ),
      (ps.foldl build_valid_step init j).isSome =
        (decide (j ∈ ps.map Prod.fst) || (init j).isSome) := by
  intro ps
  induction ps with
  | nil =>
    intro init j
    simp
  | cons p t ih =>
    intro init j
    rw [List.foldl_cons, ih]
    by_cases hj : j = p.1
    · by_cases hz : p.2 = 0 <;> simp [build_valid_step, hj, hz]
    · have hb : (j == p.1) = false := by simpa using hj
      simp [build_valid_step, hj, hb]

theorem build_valid_isSome_of_mem (presence : List (ℕ × ℚ)) (j : ℕ)
    (h : j ∈ presence.map Prod.fst) : (build_valid presence j).isSome := by
  rw [build_valid, build_valid_foldl_isSome]
  simp [h]

theorem get_action_unit_foldlM :
    ∀ (l : List (ℕ × ℚ)) (valid : ℕ → Option Bool) (au0 : ℕ → ℚ),
      (∀ p ∈ l, (valid p.1).isSome) →
      ∃ au, l.foldlM (get_action_unit_step valid) au0 = some au ∧
        (∀ j, j ∉ l.map Prod.fst → au j = au0 j) ∧
        ((l.map Prod.fst).Nodup →
          ∀ p ∈ l, au p.1 = if valid p.1 = some true then p.2 / 5 else au0 p.1) := by
  intro l
  induction l with
  | nil =>
    intro valid au0 _
    exact ⟨au0, rfl, fun j _ => rfl, fun _ p hp => absurd hp (List.not_mem_nil p)⟩
  | cons p t ih =>
    intro valid au0 hall
    obtain ⟨b, hb⟩ := Option.isSome_iff_exists.1 (hall p (List.mem_cons_self p t))
    obtain ⟨au, hfold, hoff, hval⟩ :=
      ih valid (if b then (fun j => if j = p.1 then p.2 / 5 else au0 j) else au0)
        (fun q hq => hall q (List.mem_cons_of_mem p hq))
    refine ⟨au, ?_, ?_, ?_⟩
    · rw [List.foldlM_cons]
      simp only [get_action_unit_step, hb]
      exact hfold
    · intro j hj
      rw [List.map_cons] at hj
      have hne : j ≠ p.1 := fun h => hj (h ▸ List.mem_cons_self _ _)
      have hnt : j ∉ t.map Prod.fst := fun h => hj (List.mem_cons_of_mem _ h)
      rw [hoff j hnt]
      cases b <;> simp [hne]
    · intro hnd q hq
      rw [List.map_cons, List.nodup_cons] at hnd
      rcases List.mem_cons.1 hq with rfl | hq'
      · rw [hoff q.1 hnd.1]
        cases hbv : b
        · subst hbv
          have : valid q.1 ≠ some true := by rw [hb]; simp
          simp [this]
        · subst hbv
          have : valid q.1 = some true := hb
          simp [this]
      · rw [hval hnd.2 q hq']
        have hne : q.1 ≠ p.1 := by
          intro h
          exact hnd.1 (h ▸ List.mem_map_of_mem Prod.fst hq')
        cases b <;> simp [hne]

/-- **C9.** For every call to `get_action_unit` in which each AU id occurring
in the intensity mapping also occurs in the presence mapping (and ids are not
repeated, as map keys), every read of the per-id validity array is preceded by
a write to that same index — in this embedding the `Option`-valued validity
lookup in the intensity loop never returns `none`, so the fold yields `some`
result — and each output slot then equals the reported intensity divided by
5.0 when the id is flagged present, and 0.0 otherwise. -/
theorem get_action_unit_c9 (intensity presence : List (ℕ × ℚ))
    (hcov : ∀ p ∈ intensity, p.1 ∈ presence.map Prod.fst)
    (hnd : (intensity.map Prod.fst).Nodup) :
    ∃ au : ℕ → ℚ, get_action_unit intensity presence = some au ∧
      (∀ j, j ∉ intensity.map Prod.fst → au j = 0) ∧
      (∀ p ∈ intensity,
        au p.1 = if build_valid presence p.1 = some true then p.2 / 5 else 0) := by
  obtain ⟨au, h1, h2, h3⟩ :=
    get_action_unit_foldlM intensity (build_valid presence) (fun _ => 0)
      (fun p hp => build_valid_isSome_of_mem presence p.1 (hcov p hp))
  exact ⟨au, h1, fun j hj => h2 j hj, fun p hp => h3 hnd p hp⟩

/-- Witness for C9 on concrete maps: AU01 present with raw intensity 2
(slot `2 / 5`), AU45 reported but flagged absent (slot 0). -/
theorem get_action_unit_c9_witness :
    ((∀ p ∈ c9_intensity, p.1 ∈ c9_presence.map Prod.fst) ∧
      (c9_intensity.map Prod.fst).Nodup) ∧
    ∃ au : ℕ → ℚ, get_action_unit c9_intensity c9_presence = some au ∧
      (∀ j, j ∉ c9_intensity.map Prod.fst → au j = 0) ∧
      (∀ p ∈ c9_intensity,
        au p.1 = if build_valid c9_presence p.1 = some true then p.2 / 5 else 0) :=
  ⟨⟨by decide, by decide⟩, get_action_unit_c9 c9_intensity c9_presence (by decide) (by decide)⟩

theorem run_loop_c10_aux (K : NumKernels) :
    ∀ (inputs : List FrameInput) (vmd : VMDState) (n : ℕ),
      (vmd.morph.filter (fun m => m.name == "びっくり")).map (fun m => (m.frame, m.weight)) =
        (vmd.morph.filter (fun m => m.name == "上")).map (fun m => (m.frame, m.weight)) →
      ((run_loop K vmd n inputs).morph.filter (fun m => m.name == "びっくり")).map
          (fun m => (m.frame, m.weight)) =
        ((run_loop K vmd n inputs).morph.filter (fun m => m.name == "上")).map
          (fun m => (m.frame, m.weight)) := by
  intro inputs
  induction inputs with
  | nil =>
    intro vmd n h
    exact h
  | cons inp rest ih =>
    intro vmd n h
    rw [run_loop]
    apply ih
    cases hd : inp.detected with
    | none =>
      rw [process_frame_none K vmd n inp hd]
      exact h
    | some d =>
      rw [process_frame_some K vmd n inp d hd]
      simp only [List.filter_append, List.map_append, est_list_filter_bikkuri,
        est_list_filter_ue]
      rw [h]
      rfl

/-- **C10.** For every processed frame and every Action Unit array, the sample
appended to the びっくり (surprise) morph channel and the sample appended to
the 上 (up) morph channel carry the same weight — both the clamped
UpperLidRaiser (AU05) intensity — so the two channels are identical
(frame, weight) time series after the mapping phase. -/
theorem surprise_up_identical_c10 (K : NumKernels) (inputs : List FrameInput) :
    (∀ (mv : List VMD_Morph) (au : ℕ → ℚ) (n : ℕ),
      (estimate_facial_expression mv au n).filter (fun m => m.name == "びっくり") =
        mv.filter (fun m => m.name == "びっくり") ++
          [⟨"びっくり", n, clamp01 (au AUID.UpperLidRaiser)⟩] ∧
      (estimate_facial_expression mv au n).filter (fun m => m.name == "上") =
        mv.filter (fun m => m.name == "上") ++
          [⟨"上", n, clamp01 (au AUID.UpperLidRaiser)⟩]) ∧
    ((read_face_vmd_mapper K inputs).morph.filter (fun m => m.name == "びっくり")).map
        (fun m => (m.frame, m.weight)) =
      ((read_face_vmd_mapper K inputs).morph.filter (fun m => m.name == "上")).map
        (fun m => (m.frame, m.weight)) := by
  constructor
  · intro mv au n
    constructor
    · rw [estimate_facial_expression_eq, List.filter_append, est_list_filter_bikkuri]
    · rw [estimate_facial_expression_eq, List.filter_append, est_list_filter_ue]
  · apply run_loop_c10_aux K inputs ⟨[], []⟩ 0
    rfl
